import Mathlib

/-!
# Verification of the SLJchatbot retrieval-augmented chat engine

Shallow embedding of the core logic of the repository:

* the document store (`src/lib/documents-store.ts`): `getDocumentById`,
  `deleteDocument` (soft delete);
* the relevance-ranked search (`searchDocuments`, `calculateMatchScore`,
  `findBestSnippet`);
* the conversation memory (`ConversationMemory.addTurn`, `getContext`,
  `getRecentDocumentContext`);
* the response assembly (`generateAdvancedChatResponse`,
  `generateStreamingResponse`, `generateIntelligentFallback`).

Modelling conventions:

* JavaScript strings are modelled as `List Char` (`Str`); `String` literals
  are converted with `Str.lit`.
* JavaScript's `toLowerCase` is modelled character-wise by `Char.toLower`,
  which agrees with JavaScript on ASCII and is the identity on the CJK
  ranges used by the tokenizer.
* JavaScript numbers appearing in scores are exact multiples of 0.1 (the
  idealized real-number semantics of the scorer); we represent a score `s`
  by the natural number `10 * s` ("tenths") so that all arithmetic is exact
  and decidable.  Order and equality of scores are preserved by this
  scaling.  Similarly the `chars / 4` token estimate of the conversation
  memory is represented in quarter-token units (i.e. plain character
  counts), with the budget `maxTokens` scaled by 4 in comparisons.
* Effectful chat operations are modelled by explicit event traces
  (`ChatEvent`): yielding a stream frame, or committing a turn to memory.
  An async generator's consumer controls how far the trace is executed;
  `observeStream` truncates the trace after a given number of pulled
  frames, exactly as cooperative suspension at `yield` does.
-/

/-- JavaScript strings, modelled as lists of characters. -/
abbrev Str := List Char

/-- Convert a Lean string literal to the `Str` model. -/
def Str.lit (s : String) : Str := s.toList

/-- The whitespace test used to model JavaScript's `\s` and `trim()`
(ASCII whitespace; the repository's queries and documents do not use
exotic Unicode spaces). -/
def isWs (c : Char) : Bool := c.isWhitespace

/-- JavaScript `String.prototype.trim()`. -/
def jsTrim (s : Str) : Str :=
  ((s.dropWhile isWs).reverse.dropWhile isWs).reverse

/-- JavaScript `String.prototype.toLowerCase()`, character-wise. -/
def lowerStr (s : Str) : Str := s.map Char.toLower

/-- JavaScript `String.prototype.includes` (substring containment). -/
def jsIncludes : Str → Str → Bool
  | s, sub =>
    sub.isPrefixOf s ||
      (match s with
       | [] => false
       | _ :: t => jsIncludes t sub)

/-- Split on every character satisfying `p`, dropping the separators
(the model of `split(/[c...]/)` for a single-character class; adjacent
separators produce empty pieces, as in JavaScript). -/
def splitOnCharAux (p : Char → Bool) : Str → Str → List Str
  | [], cur => [cur.reverse]
  | c :: rest, cur =>
    if p c then cur.reverse :: splitOnCharAux p rest []
    else splitOnCharAux p rest (c :: cur)

/-- `split` on a single-character class. -/
def splitOnChar (p : Char → Bool) (s : Str) : List Str :=
  splitOnCharAux p s []

/-- `query.split(/\s+/)`: we split on every whitespace character; the
empty pieces this produces for runs of whitespace are removed by the
caller's `length > 1` filter, so the result agrees with JavaScript's
run-collapsing split after that filter. -/
def splitWs (s : Str) : List Str := splitOnChar isWs s

/-- JavaScript `array.join(sep)`. -/
def joinWith (sep : Str) (xs : List Str) : Str := List.intercalate sep xs

/-- JavaScript `text.substring(0, n)` / `slice(0, n)`. -/
def jsTake (n : ℕ) (s : Str) : Str := s.take n

/-! ## Document store (`src/lib/documents-store.ts`) -/

/-- `DocumentMetadata` from `documents-store.ts`. -/
structure DocumentMetadata where
  id : Str
  title : Str
  description : Str
  fileName : Str
  originalFileName : Str
  filePath : Str
  fileSize : ℕ
  mimeType : Str
  extractedText : Str
  tags : List Str
  uploadedBy : Str
  uploadedAt : Str
  version : ℕ
  isActive : Bool
deriving DecidableEq, Repr

/-- `getDocumentById`: `documents.find(doc => doc.id === id && doc.isActive) || null`.
The parsed store contents are passed explicitly. -/
def getDocumentById (docs : List DocumentMetadata) (id : Str) : Option DocumentMetadata :=
  docs.find? (fun d => d.id == id && d.isActive)

/-- `{d with isActive := false}` — the soft-delete mutation
`documents[docIndex].isActive = false`. -/
def deactivate (d : DocumentMetadata) : DocumentMetadata :=
  { d with isActive := false }

/-- `deleteDocument`: find the first document with the given id
(`findIndex(doc => doc.id === id)`); if none, return `false` and leave the
store unchanged; otherwise set that document's `isActive` to `false` and
return `true`.  The returned pair is (return value, written store). -/
def deleteDocument : List DocumentMetadata → Str → Bool × List DocumentMetadata
  | [], _ => (false, [])
  | d :: rest, id =>
    if d.id = id then (true, deactivate d :: rest)
    else
      let r := deleteDocument rest id
      (r.1, d :: r.2)

/-- A sample store with one active and one soft-deleted document. -/
def c9docs : List DocumentMetadata :=
  [{ id := Str.lit "a", title := Str.lit "Alpha", description := [],
     fileName := [], originalFileName := [], filePath := [], fileSize := 0,
     mimeType := [], extractedText := [], tags := [], uploadedBy := [],
     uploadedAt := [], version := 1, isActive := true },
   { id := Str.lit "b", title := Str.lit "Beta", description := [],
     fileName := [], originalFileName := [], filePath := [], fileSize := 0,
     mimeType := [], extractedText := [], tags := [], uploadedBy := [],
     uploadedAt := [], version := 1, isActive := false }]

/-! ## Tokenizer / scorer (`searchDocuments` support, `part_011`) -/

/-- The CJK character test `/[぀-ゟ゠-ヿ一-龯]/`
applied to a single character. -/
def isCJK (c : Char) : Bool :=
  (0x3040 ≤ c.toNat && c.toNat ≤ 0x309f) ||
  (0x30a0 ≤ c.toNat && c.toNat ≤ 0x30ff) ||
  (0x4e00 ≤ c.toNat && c.toNat ≤ 0x9faf)

/-- `/[぀-ゟ゠-ヿ一-龯]/.test(s)`: the string
contains a CJK character. -/
def containsCJK (s : Str) : Bool := s.any isCJK

/-- JavaScript's `\w` word-character class (ASCII letters, digits,
underscore). -/
def isWordChar (c : Char) : Bool :=
  (0x61 ≤ c.toNat && c.toNat ≤ 0x7a) ||    -- a-z
  (0x41 ≤ c.toNat && c.toNat ≤ 0x5a) ||    -- A-Z
  (0x30 ≤ c.toNat && c.toNat ≤ 0x39) ||    -- 0-9
  c == '_'

/-- Count non-overlapping occurrences of `term` in `text`, scanning left
to right and advancing past each match.  Both branches of the source's
occurrence counter behave this way: the `indexOf` loop used for CJK terms
and the global regex (with the term's metacharacters escaped) used for
other terms.  `fuel` bounds the scan; every step consumes at least one
character, so `text.length` fuel suffices. -/
def countOccurAux (term : Str) : ℕ → Str → ℕ
  | 0, _ => 0
  | _ + 1, [] => 0
  | fuel + 1, c :: rest =>
    if term.isPrefixOf (c :: rest) then
      1 + countOccurAux term fuel (List.drop (term.length - 1) rest)
    else countOccurAux term fuel rest

def countOccur (term text : Str) : ℕ :=
  if term.isEmpty then 0 else countOccurAux term text.length text

/-- Is the character at index `i` of `text` a word character (out of
range counts as non-word)? -/
def wordAt (text : Str) (i : ℕ) : Bool :=
  match text.drop i with
  | [] => false
  | c :: _ => isWordChar c

/-- JavaScript's `\b` at position `p` of `text`: the word-character
status changes between the two sides of the position (a position outside
the text on either side counts as non-word). -/
def boundaryAt (text : Str) (p : ℕ) : Bool :=
  (if p = 0 then false else wordAt text (p - 1)) != wordAt text p

/-- Count the matches of the global regex `\bterm\b` in `text`: a
left-to-right scan that counts a position when `term` occurs there with a
word boundary on both sides, then continues after the match. -/
def countWordMatchesAux (text term : Str) : ℕ → ℕ → ℕ
  | 0, _ => 0
  | fuel + 1, i =>
    if i + term.length ≤ text.length then
      if term.isPrefixOf (text.drop i) && boundaryAt text i &&
          boundaryAt text (i + term.length) then
        1 + countWordMatchesAux text term fuel (i + term.length)
      else countWordMatchesAux text term fuel (i + 1)
    else 0

def countWordMatches (text term : Str) : ℕ :=
  if term.isEmpty then 0 else countWordMatchesAux text term (text.length + 1) 0

/-- `calculateMatchScore` from `part_011`, in tenths (the source adds, per
term with at least one occurrence: `occurrences`, `term.length * 0.1`,
and for non-CJK terms `exactMatches * 2`; here: `10 * occurrences`,
`term.length`, `20 * exactMatches`). -/
def calculateMatchScore (text : Str) (searchTerms : List Str) : ℕ :=
  if text.isEmpty then 0
  else
    let textLower := lowerStr text
    searchTerms.foldl
      (fun score term =>
        if term.length = 0 then score
        else
          let occurrences := countOccur term textLower
          if 0 < occurrences then
            score + 10 * occurrences + term.length +
              (if containsCJK term then 0 else 20 * countWordMatches textLower term)
          else score)
      0

/-- Sentence-terminal punctuation of `split(/[.!?。！？]\s+/)`. -/
def isSentEnd (c : Char) : Bool :=
  c == '.' || c == '!' || c == '?' || c == '。' || c == '！' || c == '？'

/-- `text.split(/[.!?。！？]\s+/)`: split where a sentence terminator is
immediately followed by whitespace; the terminator and the maximal
whitespace run are consumed (greedy `\s+`).  `fuel` bounds the scan. -/
def splitSentencesAux : ℕ → Str → Str → List Str
  | 0, s, cur => [cur.reverse ++ s]
  | _ + 1, [], cur => [cur.reverse]
  | fuel + 1, c :: rest, cur =>
    if isSentEnd c && (match rest with | [] => false | r :: _ => isWs r) then
      cur.reverse :: splitSentencesAux fuel (rest.dropWhile isWs) []
    else splitSentencesAux fuel rest (c :: cur)

def splitSentences (s : Str) : List Str := splitSentencesAux (s.length + 1) s []

/-- `findBestSnippet` from `part_011`: score each sentence together with
its immediate neighbours, truncated to `maxLength` with an ellipsis, and
keep the strictly best-scoring candidate; fall back to a plain prefix when
no candidate scores above zero. -/
def findBestSnippet (text : Str) (searchTerms : List Str) (maxLength : ℕ) : Str :=
  let sentences := splitSentences text
  let best := (List.range sentences.length).foldl
    (fun (best : Str × ℕ) i =>
      let s0 := (sentences.drop i).headD []
      let s1 := if 0 < i then ((sentences.drop (i - 1)).headD []) ++ ' ' :: s0 else s0
      let s2 :=
        if i < sentences.length - 1 then s1 ++ ' ' :: ((sentences.drop (i + 1)).headD [])
        else s1
      let snippet := if maxLength < s2.length then jsTake maxLength s2 ++ Str.lit "..." else s2
      let score := calculateMatchScore snippet searchTerms
      if best.2 < score then (snippet, score) else best)
    ([], 0)
  if best.1.isEmpty then
    jsTake maxLength text ++ (if maxLength < text.length then Str.lit "..." else [])
  else best.1

/-- Deduplication keeping the first occurrence of each element — the
behaviour of `[...new Set(array)]`. -/
def dedupAux : List Str → List Str → List Str
  | [], _ => []
  | x :: xs, seen => if seen.contains x then dedupAux xs seen else x :: dedupAux xs (x :: seen)

def dedupFirst (l : List Str) : List Str := dedupAux l []

/-- Search-term extraction from the lower-cased query (`searchDocuments`
lines 150–178): whitespace-split terms of length `> 1`; and, when the
query contains a CJK character, every individual CJK character plus every
substring of length 2–4 starting at a CJK character (kept when it contains
a CJK character, which its first character guarantees); the concatenation
is deduplicated and empty terms are dropped. -/
def extractTerms (searchLower : Str) : List Str :=
  let spaceTerms := (splitWs searchLower).filter (fun t => 1 < t.length)
  let jpTerms :=
    if containsCJK searchLower then
      let japaneseChars := (searchLower.filter isCJK).map (fun c => [c])
      let combos :=
        (List.range (searchLower.length - 1)).flatMap (fun i =>
          if (jsTake 1 (searchLower.drop i)).any isCJK then
            (List.range' 2 (min 4 (searchLower.length - i) - 1)).filterMap (fun len =>
              let term := jsTake len (searchLower.drop i)
              if containsCJK term then some term else none)
          else [])
      japaneseChars ++ combos
    else []
  (dedupFirst (spaceTerms ++ jpTerms)).filter (fun t => 0 < t.length)

/-! ## Search (`searchDocuments`, `part_011` lines 128–243) -/

inductive MatchType
  | title
  | description
  | content
  | tags
deriving DecidableEq, Repr

/-- `SearchResult` from `part_011`.  `relevanceScore` is in tenths (see
the header); `matchedText` is optional in the source and absent in the
empty-query branch. -/
structure SearchResult where
  document : DocumentMetadata
  relevanceScore : ℕ
  matchType : MatchType
  matchedText : Option Str
deriving DecidableEq, Repr

/-- Score one document against the extracted terms — the body of the
`for (const doc of documents)` loop: weighted field scores accumulated in
order title (×10), description (×5), tags (×8), content (×2), with the
best match type and matched text chosen by the first field (in that
order) that scored; documents with total score 0 produce no result. -/
def scoreDoc (searchTerms : List Str) (doc : DocumentMetadata) : Option SearchResult :=
  let titleScore := calculateMatchScore doc.title searchTerms
  let s1 : ℕ × MatchType × Str :=
    if 0 < titleScore then (titleScore * 10, MatchType.title, doc.title)
    else (0, MatchType.content, [])
  let descriptionScore := calculateMatchScore doc.description searchTerms
  let s2 : ℕ × MatchType × Str :=
    if 0 < descriptionScore then
      (s1.1 + descriptionScore * 5,
       if s1.2.1 = MatchType.content then MatchType.description else s1.2.1,
       if s1.2.1 = MatchType.content then doc.description else s1.2.2)
    else s1
  let tagsText := joinWith [' '] doc.tags
  let tagsScore := calculateMatchScore tagsText searchTerms
  let s3 : ℕ × MatchType × Str :=
    if 0 < tagsScore then
      (s2.1 + tagsScore * 8,
       if s2.2.1 = MatchType.content then MatchType.tags else s2.2.1,
       if s2.2.1 = MatchType.content then tagsText else s2.2.2)
    else s2
  let s4 : ℕ × Str :=
    if 0 < doc.extractedText.length then
      let contentScore := calculateMatchScore doc.extractedText searchTerms
      if 0 < contentScore then
        (s3.1 + contentScore * 2,
         if s3.2.1 = MatchType.content then findBestSnippet doc.extractedText searchTerms 200
         else s3.2.2)
      else (s3.1, s3.2.2)
    else (s3.1, s3.2.2)
  if 0 < s4.1 then some ⟨doc, s4.1, s3.2.1, some s4.2⟩ else none

/-- The unsorted result list, in document iteration order. -/
def rawResults (searchTerms : List Str) (documents : List DocumentMetadata) :
    List SearchResult :=
  documents.filterMap (scoreDoc searchTerms)

/-- The ordering used by `results.sort((a, b) => b.relevanceScore - a.relevanceScore)`:
descending relevance. -/
def scoreGE (a b : SearchResult) : Prop := b.relevanceScore ≤ a.relevanceScore

instance : DecidableRel scoreGE := fun a b => Nat.decLe b.relevanceScore a.relevanceScore

instance : IsTotal SearchResult scoreGE :=
  ⟨fun a b => Nat.le_total b.relevanceScore a.relevanceScore⟩

instance : IsTrans SearchResult scoreGE :=
  ⟨fun _ _ _ hab hbc => Nat.le_trans hbc hab⟩

/-- `searchDocuments` from `part_011`.  JavaScript's `Array.prototype.sort`
is stable, and a stable sort under a total preorder has a unique result;
we use insertion sort, which is stable. -/
def searchDocuments (query : Str) (docs : List DocumentMetadata) (limit : ℕ) :
    List SearchResult :=
  let documents := docs.filter (fun d => d.isActive)
  if query.isEmpty || (jsTrim query).isEmpty then
    (documents.take limit).map (fun d => ⟨d, 0, MatchType.content, none⟩)
  else
    let searchLower := lowerStr query
    let searchTerms := extractTerms searchLower
    let results := rawResults searchTerms documents
    (List.insertionSort scoreGE results).take limit

/-! ## Specification-side scoring formula (for the refinement claim C3)

These definitions follow the specification's wording: "each field score is
the sum over the extracted search terms of: occurrence count … plus
0.1 × term length, plus, for non-CJK terms only, 2 × the number of exact
word-boundary matches; a field with zero occurrences of every term
contributes 0" — per-term contributions apply to occurring terms (the
zero-occurrence clause).  Stated in tenths, like `calculateMatchScore`. -/

/-- One term's contribution to a field score, as the specification words
it (tenths). -/
def specTermContribution (textLower : Str) (term : Str) : ℕ :=
  let occurrences := countOccur term textLower
  if 0 < occurrences then
    10 * occurrences + term.length +
      (if containsCJK term then 0 else 20 * countWordMatches textLower term)
  else 0

/-- A field's score as the specification words it: the sum of the per-term
contributions against the case-folded field text (tenths). -/
def specFieldScore (text : Str) (terms : List Str) : ℕ :=
  (terms.map (specTermContribution (lowerStr text))).sum

/-- The match-type / matched-text priority that `searchDocuments` actually
implements, stated directly: the first of title, description, tags (in
that order) with a positive field score provides the match type and the
displayed text; otherwise the match is a content match displaying the
best snippet. -/
def specMatchSelect (t d g : ℕ) (doc : DocumentMetadata) (terms : List Str) :
    MatchType × Str :=
  if 0 < t then (MatchType.title, doc.title)
  else if 0 < d then (MatchType.description, doc.description)
  else if 0 < g then (MatchType.tags, joinWith [' '] doc.tags)
  else (MatchType.content, findBestSnippet doc.extractedText terms 200)

/-! ## Concrete fixtures used by witnesses and counterexamples -/

/-- Build a `DocumentMetadata` fixture; fields irrelevant to the claims
are defaulted. -/
def mkDoc (id title description extractedText : String) (tags : List String)
    (isActive : Bool) : DocumentMetadata :=
  { id := Str.lit id, title := Str.lit title, description := Str.lit description,
    fileName := [], originalFileName := [], filePath := [], fileSize := 0,
    mimeType := [], extractedText := Str.lit extractedText,
    tags := tags.map Str.lit, uploadedBy := [], uploadedAt := [],
    version := 1, isActive := isActive }

/-- Three active and two inactive documents, all of which match the query
`"report"` through their content. -/
def c2docs : List DocumentMetadata :=
  [mkDoc "d1" "" "" "annual report" [] true,
   mkDoc "d2" "" "" "report two" [] true,
   mkDoc "d3" "" "" "third report" [] true,
   mkDoc "d4" "" "" "annual report" [] false,
   mkDoc "d5" "" "" "report again" [] false]

/-- A document whose description and tags both match the query
`"meeting"` while its title does not. -/
def c5doc : DocumentMetadata :=
  mkDoc "c5" "alpha" "meeting notes" "" ["meeting"] true

/-- A single document matching `"report"` through its content. -/
def c3doc : DocumentMetadata := mkDoc "d1" "" "" "annual report" [] true

/-- The search result `searchDocuments "report" [c3doc] 10` produces
(score in tenths: one occurrence = 10, length bonus 6, word-boundary
bonus 20, content weight ×2 → 72). -/
def c3result : SearchResult :=
  ⟨c3doc, 72, MatchType.content, some (Str.lit "annual report")⟩

/-- The search result `searchDocuments "meeting" [c5doc] 10` produces:
description (37 tenths) ×5 + tags (37 tenths) ×8 = 481, displayed as a
description match. -/
def c5result : SearchResult :=
  ⟨c5doc, 481, MatchType.description, some (Str.lit "meeting notes")⟩

/-! ## Conversation memory (`part_013` lines 38–137) -/

inductive Role
  | user
  | assistant
deriving DecidableEq, Repr

/-- `ConversationTurn` from `part_013`; the timestamp (`new Date()`) is an
environment input passed to `addTurn`. -/
structure ConversationTurn where
  role : Role
  content : Str
  timestamp : ℕ
  documentContext : Option Str
deriving DecidableEq, Repr

/-- `ConversationMemory` state: the turn buffer and the two bounds. -/
structure ConversationMemory where
  history : List ConversationTurn
  maxTurns : ℕ
  maxTokens : ℕ
deriving DecidableEq, Repr

/-- JavaScript `array.slice(-n)` for a natural `n`: JavaScript converts
`-0` to `0`, so `slice(-0)` returns the whole array; for positive `n` it
returns the last `n` elements (all of them when `n` exceeds the
length). -/
def jsSliceNeg (l : List α) (n : ℕ) : List α :=
  if n = 0 then l else l.drop (l.length - n)

/-- `addTurn`: push the new turn, then
`if (history.length > maxTurns) history = history.slice(-maxTurns)`. -/
def ConversationMemory.addTurn (m : ConversationMemory) (role : Role) (content : Str)
    (documentContext : Option Str) (ts : ℕ) : ConversationMemory :=
  let h := m.history ++ [⟨role, content, ts, documentContext⟩]
  if m.maxTurns < h.length then { m with history := jsSliceNeg h m.maxTurns }
  else { m with history := h }

/-- The formatted line for one turn:
`(role === 'user' ? 'Human' : 'Assistant') + ': ' + content + '\n'`. -/
def formatTurn (t : ConversationTurn) : Str :=
  (if t.role = Role.user then Str.lit "Human: " else Str.lit "Assistant: ") ++
    t.content ++ Str.lit "\n"

/-- The loop of `getContext`, walking the history from the most recent
turn backwards.  The source compares
`tokenCount + turnText.length / 4 > maxTokens` with exact division;
multiplying through by 4, we accumulate plain character counts
(quarter-token units) and compare with `4 * maxTokens`. -/
def getContextAux (maxTokens : ℕ) : List ConversationTurn → ℕ → Str → Str
  | [], _, context => context
  | turn :: rest, tokenCount4, context =>
    let turnText := formatTurn turn
    if 4 * maxTokens < tokenCount4 + turnText.length then context
    else getContextAux maxTokens rest (tokenCount4 + turnText.length) (turnText ++ context)

/-- `getContext`: assemble the transcript from the most recent turn
backwards, stopping at the first turn that would exceed the token budget,
returning the kept turns in chronological order. -/
def ConversationMemory.getContext (m : ConversationMemory) : Str :=
  getContextAux m.maxTokens m.history.reverse 0 []

/-- JavaScript truthiness of the optional `documentContext` field
(`undefined` and the empty string are falsy). -/
def jsTruthy : Option Str → Bool
  | none => false
  | some s => ¬ s.isEmpty

/-- `getRecentDocumentContext`: scan the last three turns for truthy
document contexts and return the most recent one, or the empty string. -/
def ConversationMemory.getRecentDocumentContext (m : ConversationMemory) : Str :=
  let recentTurns := jsSliceNeg m.history 3
  let documentContexts :=
    (recentTurns.filter (fun t => jsTruthy t.documentContext)).map
      (fun t => t.documentContext.getD [])
  if 0 < documentContexts.length then documentContexts.getLastD [] else []

/-- A memory with `maxTurns = 0`: the `slice(-0)` edge case. -/
def c6mem0 : ConversationMemory := ⟨[], 0, 2000⟩

/-- Five sequential `addTurn` calls on a fresh memory with
`maxTurns = 3`. -/
def c6mem5 : ConversationMemory :=
  (((((⟨[], 3, 2000⟩ : ConversationMemory).addTurn
    Role.user (Str.lit "m1") none 1).addTurn
    Role.user (Str.lit "m2") none 2).addTurn
    Role.user (Str.lit "m3") none 3).addTurn
    Role.user (Str.lit "m4") none 4).addTurn
    Role.user (Str.lit "m5") none 5

/-- A memory with two turns and a zero token budget. -/
def c7mem0 : ConversationMemory :=
  ⟨[⟨Role.user, Str.lit "hello", 0, none⟩,
    ⟨Role.assistant, Str.lit "world", 1, none⟩], 10, 0⟩

/-! ## Fallback response generation (`part_013` lines 410–942)

The external completion service is opaque (spec §6): its outcome enters
the model as an `Option Str` (`none` = the call threw).  The exact prompt
string assembled for the service does not influence any claim and is not
modelled.  The fallback generator below is the deterministic
`generateIntelligentFallback` and its helpers, transcribed from the
source. -/

/-- Decimal rendering of a count interpolated into a template string. -/
def natToStr (n : ℕ) : Str := (Nat.repr n).toList

/-- JavaScript `s || d` for strings: the empty string is falsy. -/
def jsOrStr (s d : Str) : Str := if s.isEmpty then d else s

/-- `content.split('\n')`. -/
def splitLines (s : Str) : List Str := splitOnChar (fun c => c == '\n') s

/-- `line.toLowerCase().includes(term)`. -/
def lineHas (line : Str) (term : String) : Bool :=
  jsIncludes (lowerStr line) (Str.lit term)

/-- The lines of `content` containing (case-insensitively) one of the
given keywords — the repeated `split('\n').filter(line =>
terms.some(term => line.toLowerCase().includes(term)))` pattern. -/
def linesWithAny (content : Str) (terms : List String) : List Str :=
  (splitLines content).filter (fun line => terms.any (fun t => lineHas line t))

/-- `/\d/.test(content)`. -/
def hasNumbers (content : Str) : Bool := content.any Char.isDigit

/-- A date separator: a slash or a hyphen. -/
def isDateSep (c : Char) : Bool := c == '/' || c == '-'

/-- `n` digits are present at index `i`. -/
def digitsAt (s : Str) (i n : ℕ) : Bool :=
  ((s.drop i).take n).length = n && ((s.drop i).take n).all Char.isDigit

/-- A date separator is present at index `i`. -/
def sepAt (s : Str) (i : ℕ) : Bool :=
  match (s.drop i).head? with
  | some c => isDateSep c
  | none => false

/-- A match of the date regex (four digits, separator, one or two
digits, separator, one or two digits — or the reversed year-last form;
the separator class is slash-or-hyphen) begins at index `i`; existence of
a decomposition is what the regex test computes. -/
def dateAt (s : Str) (i : ℕ) : Bool :=
  (digitsAt s i 4 && sepAt s (i + 4) &&
    [1, 2].any (fun a => digitsAt s (i + 5) a && sepAt s (i + 5 + a) &&
      [1, 2].any (fun b => digitsAt s (i + 6 + a) b))) ||
  ([1, 2].any (fun a => digitsAt s i a && sepAt s (i + a) &&
    [1, 2].any (fun b => digitsAt s (i + a + 1) b && sepAt s (i + a + 1 + b) &&
      digitsAt s (i + a + 2 + b) 4)))

/-- The date-pattern regex test used by the document statistics. -/
def hasDate (s : Str) : Bool := (List.range s.length).any (dateAt s)

/-- `^[•・▪▫■□●○]\s` on the trimmed line. -/
def isBulletLine (line : Str) : Bool :=
  match jsTrim line with
  | c :: d :: _ => (Str.lit "•・▪▫■□●○").contains c && isWs d
  | _ => false

/-- `^\d+[.)]\s`: one or more digits, then `.` or `)`, then whitespace. -/
def isNumberedStr (t : Str) : Bool :=
  let ds := t.takeWhile Char.isDigit
  let rest := t.drop ds.length
  ¬ ds.isEmpty &&
    (match rest with
     | c :: d :: _ => (c == '.' || c == ')') && isWs d
     | _ => false)

/-- `chapter`/`section` keyword followed by `\s+\d`, case-insensitively. -/
def chapterLike (t : Str) (kw : String) : Bool :=
  (Str.lit kw).isPrefixOf (lowerStr t) &&
    (let rest := (lowerStr t).drop (Str.lit kw).length
     let ws := rest.takeWhile isWs
     ¬ ws.isEmpty &&
       (match rest.drop ws.length with
        | c :: _ => c.isDigit
        | [] => false))

/-- `第\d+章` / `第\d+条` at the start of `t`, and `§\d+`. -/
def kanjiSection (t : Str) : Bool :=
  match t with
  | c :: rest =>
    (c == '第' &&
      (let ds := rest.takeWhile Char.isDigit
       ¬ ds.isEmpty &&
         (match rest.drop ds.length with
          | d :: _ => d == '章' || d == '条'
          | [] => false))) ||
    (c == '§' && ¬ (rest.takeWhile Char.isDigit).isEmpty)
  | [] => false

/-- `^(第\d+章|第\d+条|§\d+|Chapter\s+\d+|Section\s+\d+)/i` on the
trimmed line. -/
def isSectionLine (line : Str) : Bool :=
  let t := jsTrim line
  kanjiSection t || chapterLike t "chapter" || chapterLike t "section"

/-- `performAdvancedContentAnalysis` from `part_013`. -/
def performAdvancedContentAnalysis (content _question : Str) : Str :=
  if content.isEmpty || (jsTrim content).isEmpty then
    Str.lit "⚠️ 資料の内容を読み込めませんでした。"
  else
    let lines := (splitLines content).filter (fun line => 0 < (jsTrim line).length)
    let totalChars := content.length
    let bullets := (lines.filter isBulletLine).length
    let numberedItems := (lines.filter (fun l => isNumberedStr (jsTrim l))).length
    let sections := (lines.filter isSectionLine).length
    Str.lit "**📊 文書統計**:\n• 総行数: " ++ natToStr lines.length ++
      Str.lit "行 (" ++ natToStr totalChars ++ Str.lit "文字)\n• 箇条書き項目: " ++
      natToStr bullets ++ Str.lit "個\n• 番号付きリスト: " ++ natToStr numberedItems ++
      Str.lit "個\n• セクション数: " ++ natToStr sections ++
      Str.lit "個\n• 数値データ: " ++
      (if hasNumbers content then Str.lit "含む" else Str.lit "なし") ++
      Str.lit "\n• 日付情報: " ++
      (if hasDate content then Str.lit "含む" else Str.lit "なし") ++
      Str.lit "\n\n**🔍 構造化要素**: 体系的に整理された制度文書として分析済み"

/-- The result record of `extractGradeInformation`. -/
structure GradeInfo where
  overview : Str
  levels : Str
  compensation : Str
  promotion : Str
  evaluation : Str

/-- `extractGradeInformation` from `part_013`. -/
def extractGradeInformation (content : Str) : GradeInfo :=
  let gradeTerms := ["grade", "グレード", "slg", "ステップ", "レベル", "rookie",
    "associate", "leader", "manager"]
  let relevantLines := linesWithAny content gradeTerms
  let salaryInfo := (splitLines content).filter (fun line =>
    lineHas line "円" || lineHas line "手当" || lineHas line "報酬" || lineHas line "給与")
  { overview :=
      if 0 < relevantLines.length then
        Str.lit "スピードリンクジャパンのグレード制度（SLG）は、従業員のスキルレベルと責任範囲に応じた段階的なキャリアパスを提供します。現在の資料では" ++
          natToStr relevantLines.length ++ Str.lit "件のグレード関連情報が確認されています。"
      else
        Str.lit "グレード制度の基本構造が定義されており、明確なキャリアパスと評価基準が設定されています。",
    levels :=
      jsOrStr
        (joinWith (Str.lit "\n") ((relevantLines.take 10).map (fun line =>
          Str.lit "• " ++ jsTake 200 (jsTrim line))))
        (Str.lit "\n• STEP1: Rookie・Associate（基礎レベル）\n• STEP2: Sub Leader～Sub Manager（中級レベル）  \n• STEP3: Manager～（上級レベル）\n各レベルでは明確な役割と責任が定義されています。"),
    compensation :=
      if 0 < salaryInfo.length then
        joinWith (Str.lit "\n") ((salaryInfo.take 5).map (fun line =>
          Str.lit "• " ++ jsTrim line))
      else
        Str.lit "\n• グレード手当による基本報酬の差別化\n• ミッション達成による追加報酬\n• 昇格時の給与改定システム\n• 資格取得による手当加算",
    promotion :=
      Str.lit "\n• 各グレードでの必要スキル・経験の獲得\n• ミッション達成状況の評価\n• 定期的な評価面談での総合判定\n• 上位者からの推薦および承認プロセス",
    evaluation :=
      Str.lit "\n• 業務遂行能力の客観的評価\n• ミッション達成度の定量的測定\n• コミュニケーション・リーダーシップスキル\n• 継続的な学習・成長意欲の確認" }

/-- The result record of `extractEvaluationInformation`. -/
structure EvaluationInfo where
  overview : Str
  criteria : Str
  medalSheet : Str
  interviews : Str
  rewards : Str

/-- `extractEvaluationInformation` from `part_013`. -/
def extractEvaluationInformation (content : Str) : EvaluationInfo :=
  let evaluationTerms := ["評価", "メダルシート", "面談", "assessment", "evaluation"]
  let relevantLines := linesWithAny content evaluationTerms
  let medalSheetInfo := (splitLines content).filter (fun line =>
    lineHas line "メダル" || lineHas line "medal")
  { overview :=
      Str.lit "スピードリンクジャパンの評価制度は、従業員の成長と成果を適切に評価し、キャリア発展をサポートする包括的なシステムです。資料では" ++
        natToStr relevantLines.length ++ Str.lit "件の評価関連項目が確認されています。",
    criteria :=
      jsOrStr
        (joinWith (Str.lit "\n") ((relevantLines.take 8).map (fun line =>
          Str.lit "• " ++ jsTake 150 (jsTrim line))))
        (Str.lit "\n• 業務遂行能力と成果の定量的評価\n• ミッション達成状況の総合判定\n• スキル・知識レベルの客観的測定\n• チームワークとコミュニケーション能力\n• 継続的な学習・改善への取り組み"),
    medalSheet :=
      if 0 < medalSheetInfo.length then
        joinWith (Str.lit "\n") ((medalSheetInfo.take 5).map (fun line =>
          Str.lit "• " ++ jsTrim line))
      else
        Str.lit "\n• 目標設定と振り返りのツールとして活用\n• 定期的な自己評価と上司評価の実施\n• 成長目標と達成状況の可視化\n• 次期目標設定のための基礎資料として使用",
    interviews :=
      Str.lit "\n• 定期的な評価面談（四半期または半年ごと）\n• 目標達成状況の詳細レビュー\n• 課題と改善点の具体的な討議\n• 次期目標と成長計画の策定\n• キャリア相談とサポート体制の確認",
    rewards :=
      Str.lit "\n• 評価結果に基づく給与・賞与への反映\n• 昇格・昇進の判定材料として活用\n• 優秀者への表彰・インセンティブ\n• 研修・スキルアップ機会の提供優先度決定" }

/-- The result record of `extractMissionInformation`. -/
structure MissionInfo where
  overview : Str
  salaryMissions : Str
  otherMissions : Str
  progress : Str
  rewards : Str

/-- `extractMissionInformation` from `part_013`. -/
def extractMissionInformation (content : Str) : MissionInfo :=
  let missionTerms := ["ミッション", "mission", "単価up", "単価アップ", "タスク"]
  let relevantLines := linesWithAny content missionTerms
  let salaryMissions := (splitLines content).filter (fun line =>
    lineHas line "単価" || lineHas line "給与" || lineHas line "報酬")
  { overview :=
      Str.lit "ミッション制度は、従業員の成長と成果を促進するための目標設定システムです。資料では" ++
        natToStr relevantLines.length ++ Str.lit "件のミッション関連情報が確認されています。",
    salaryMissions :=
      if 0 < salaryMissions.length then
        joinWith (Str.lit "\n") ((salaryMissions.take 6).map (fun line =>
          Str.lit "• " ++ jsTrim line))
      else
        Str.lit "\n• 売上目標達成による単価アップ\n• 新規クライアント獲得ミッション\n• 品質向上・効率化達成による報酬増\n• 資格取得による手当加算ミッション",
    otherMissions :=
      Str.lit "\n• チームビルディング・リーダーシップミッション\n• 新人教育・メンター活動\n• 業務改善提案と実装\n• 顧客満足度向上施策の実行\n• 社内プロジェクトへの貢献",
    progress :=
      Str.lit "\n• 月次・四半期での進捗確認\n• メダルシートによる状況記録\n• 上司との定期的な進捗面談\n• 達成度に応じた中間評価とフィードバック",
    rewards :=
      Str.lit "\n• 達成度に応じた給与・賞与への反映\n• 優秀達成者への特別インセンティブ\n• 昇格・昇進の優先評価対象\n• 表彰制度による社内認知向上" }

/-- The result record of `extractPromotionInformation`. -/
structure PromotionInfo where
  overview : Str
  requirements : Str
  process : Str
  benefits : Str

/-- `extractPromotionInformation` from `part_013`. -/
def extractPromotionInformation (content : Str) : PromotionInfo :=
  let promotionTerms := ["昇格", "昇進", "promotion", "昇級", "昇任"]
  let relevantLines := linesWithAny content promotionTerms
  { overview :=
      Str.lit "昇格・昇進制度は、従業員の能力と成果に基づいた公正なキャリア発展機会を提供します。資料では" ++
        natToStr relevantLines.length ++ Str.lit "件の昇進関連情報が確認されています。",
    requirements :=
      jsOrStr
        (joinWith (Str.lit "\n") ((relevantLines.take 8).map (fun line =>
          Str.lit "• " ++ jsTake 150 (jsTrim line))))
        (Str.lit "\n• 現在のグレードでの必要期間の満了\n• 指定されたミッション・目標の達成\n• 必要なスキル・資格の取得\n• 評価面談での総合評価基準クリア\n• 上位職への適性と意欲の確認"),
    process :=
      Str.lit "\n• 昇格申請または推薦の提出\n• 必要書類（実績・資格証明等）の準備\n• 評価委員会による総合審査\n• 面接・プレゼンテーション（必要に応じて）\n• 最終承認と発令手続き",
    benefits :=
      Str.lit "\n• 基本給与の増額（グレードに応じて）\n• 役職手当・責任手当の付与\n• より大きな裁量権と意思決定権\n• 部下・チームの管理責任\n• さらなるキャリア発展機会の拡大" }

/-- The result record of `extractSkillInformation`. -/
structure SkillInfo where
  overview : Str
  requirements : Str
  allowances : Str
  evaluation : Str

/-- `extractSkillInformation` from `part_013`. -/
def extractSkillInformation (content : Str) : SkillInfo :=
  let skillTerms := ["資格", "スキル", "skill", "能力", "技術", "知識"]
  let relevantLines := linesWithAny content skillTerms
  { overview :=
      Str.lit "スキル・資格制度は、従業員の専門能力向上と業務品質の向上を目的とした包括的な能力開発システムです。資料では" ++
        natToStr relevantLines.length ++ Str.lit "件のスキル関連情報が確認されています。",
    requirements :=
      jsOrStr
        (joinWith (Str.lit "\n") ((relevantLines.take 8).map (fun line =>
          Str.lit "• " ++ jsTake 150 (jsTrim line))))
        (Str.lit "\n• 業務に直接関連する専門資格\n• ITスキル・デジタルリテラシー\n• コミュニケーション・プレゼンテーション能力\n• マネジメント・リーダーシップスキル\n• 継続的な学習・自己啓発への取り組み"),
    allowances :=
      Str.lit "\n• 資格取得による手当支給\n• 資格維持・更新費用の会社負担\n• 外部研修・セミナー参加費用補助\n• 昇格・昇進の優遇評価",
    evaluation :=
      Str.lit "\n• 定期的なスキルアセスメントの実施\n• 業務遂行における実践的能力の評価\n• 同僚・部下からの360度評価\n• 継続的な学習姿勢と成果の確認" }

/-- `generateComprehensiveAnalysis` from `part_013`. -/
def generateComprehensiveAnalysis (content _question : Str) : Str :=
  let lines := (splitLines content).filter (fun line => 0 < (jsTrim line).length)
  let totalChars := content.length
  let keyLines := (lines.filter (fun line =>
    lineHas line "重要" || lineHas line "必須" || lineHas line "注意" ||
    (match line with
     | c :: d :: _ => (Str.lit "■□●○▪▫").contains c && isWs d
     | _ => false) ||
    isNumberedStr line ||
    jsIncludes line (Str.lit "：") || jsIncludes line (Str.lit ":"))).take 15
  Str.lit "\n**📋 総合分析**\n\n**📊 文書概要**:\n• 文書規模: " ++
    natToStr lines.length ++ Str.lit "行（" ++ natToStr totalChars ++
    Str.lit "文字）\n• 構造化情報: " ++ natToStr keyLines.length ++
    Str.lit "件の重要項目を確認\n\n**🔍 主要内容**:\n" ++
    joinWith (Str.lit "\n") (keyLines.map (fun line =>
      Str.lit "• " ++ jsTake 200 (jsTrim line))) ++
    Str.lit "\n\n**💡 活用方法**:\n• 制度の詳細確認: 具体的な項目名で質問\n• 数値・条件の抽出: 「手当」「金額」「期間」等で質問\n• プロセスの理解: 「手順」「方法」「流れ」等で質問\n• 比較分析: 複数の制度や条件の比較"


/-- `generateIntelligentFallback` from `part_013`: the deterministic,
content-aware fallback answer.  The unused optional `conversationMemory`
parameter of the source does not influence the result and is omitted. -/
def generateIntelligentFallback (question documentContext : Str) : Str :=
  let documentTitles := [Str.lit "アップロード済み資料"]
  let structuredAnalysis := performAdvancedContentAnalysis documentContext question
  let questionLower := lowerStr question
  let intelligentResponse :=
    if jsIncludes questionLower (Str.lit "グレード") ||
        jsIncludes questionLower (Str.lit "grade") ||
        jsIncludes questionLower (Str.lit "slg") then
      let gradeInfo := extractGradeInformation documentContext
      Str.lit "\n**📊 グレード制度（SLG）詳細情報**\n\n" ++ gradeInfo.overview ++
        Str.lit "\n\n**🎯 各グレードレベル**:\n" ++ gradeInfo.levels ++
        Str.lit "\n\n**💰 報酬体系**:\n" ++ gradeInfo.compensation ++
        Str.lit "\n\n**📈 昇格プロセス**:\n" ++ gradeInfo.promotion ++
        Str.lit "\n\n**📋 評価基準**:\n" ++ gradeInfo.evaluation
    else if jsIncludes questionLower (Str.lit "評価") ||
        jsIncludes questionLower (Str.lit "evaluation") ||
        jsIncludes questionLower (Str.lit "メダルシート") then
      let evaluationInfo := extractEvaluationInformation documentContext
      Str.lit "\n**📋 評価制度詳細**\n\n" ++ evaluationInfo.overview ++
        Str.lit "\n\n**🎯 評価要素**:\n" ++ evaluationInfo.criteria ++
        Str.lit "\n\n**📊 メダルシート活用**:\n" ++ evaluationInfo.medalSheet ++
        Str.lit "\n\n**💬 評価面談**:\n" ++ evaluationInfo.interviews ++
        Str.lit "\n\n**📈 成果反映**:\n" ++ evaluationInfo.rewards
    else if jsIncludes questionLower (Str.lit "ミッション") ||
        jsIncludes questionLower (Str.lit "mission") ||
        jsIncludes questionLower (Str.lit "単価up") then
      let missionInfo := extractMissionInformation documentContext
      Str.lit "\n**🎯 ミッション制度詳細**\n\n" ++ missionInfo.overview ++
        Str.lit "\n\n**💰 単価UPミッション**:\n" ++ missionInfo.salaryMissions ++
        Str.lit "\n\n**🏆 その他ミッション**:\n" ++ missionInfo.otherMissions ++
        Str.lit "\n\n**📊 進捗管理**:\n" ++ missionInfo.progress ++
        Str.lit "\n\n**🎁 達成報酬**:\n" ++ missionInfo.rewards
    else if jsIncludes questionLower (Str.lit "昇格") ||
        jsIncludes questionLower (Str.lit "昇進") ||
        jsIncludes questionLower (Str.lit "promotion") then
      let promotionInfo := extractPromotionInformation documentContext
      Str.lit "\n**🎯 昇格・昇進制度**\n\n" ++ promotionInfo.overview ++
        Str.lit "\n\n**📋 昇格条件**:\n" ++ promotionInfo.requirements ++
        Str.lit "\n\n**📈 昇格プロセス**:\n" ++ promotionInfo.process ++
        Str.lit "\n\n**💰 昇格による変化**:\n" ++ promotionInfo.benefits
    else if jsIncludes questionLower (Str.lit "資格") ||
        jsIncludes questionLower (Str.lit "スキル") ||
        jsIncludes questionLower (Str.lit "skill") then
      let skillInfo := extractSkillInformation documentContext
      Str.lit "\n**🎓 スキル・資格制度**\n\n" ++ skillInfo.overview ++
        Str.lit "\n\n**📚 必要資格**:\n" ++ skillInfo.requirements ++
        Str.lit "\n\n**💰 資格手当**:\n" ++ skillInfo.allowances ++
        Str.lit "\n\n**📈 スキル評価**:\n" ++ skillInfo.evaluation
    else []
  let intelligentResponse :=
    if intelligentResponse.isEmpty then
      generateComprehensiveAnalysis documentContext question
    else intelligentResponse
  Str.lit "📄 **詳細分析結果**\n\n**ご質問**: " ++ question ++
    Str.lit "\n\n**📂 参照資料**: " ++ joinWith (Str.lit ", ") documentTitles ++
    Str.lit "\n\n" ++ intelligentResponse ++
    Str.lit "\n\n**🔍 構造化分析**:\n" ++ structuredAnalysis ++
    Str.lit "\n\n**💡 追加情報**:\nこの回答は、アップロードされた資料の詳細分析に基づいて生成されています。\n具体的な数値、条件、手順等を含む包括的な情報を提供しています。\n\n**📋 利用可能な機能**:\n• 詳細な制度説明\n• 具体的な数値・条件の抽出\n• 段階的なプロセス説明\n• 比較分析・要約\n• 関連項目の横断的分析\n\n**🤝 さらなるサポート**:\n特定の項目についてより詳しく知りたい場合は、具体的にお聞かせください。"

/-! ## Response assembly (`part_013` lines 248–312 and 1025–1101) -/

/-- `generateContextAwareResponse` from `part_013`. -/
def generateContextAwareResponse (question : Str) (documentContext : Str) : Str :=
  let questionLower := lowerStr question
  if jsIncludes questionLower (Str.lit "教えて") ||
      jsIncludes questionLower (Str.lit "説明") then
    if ¬ documentContext.isEmpty then
      Str.lit "ご質問「" ++ question ++
        Str.lit "」について、アップロードされた資料を参考に回答いたします。具体的にお知りになりたい点がございましたら、より詳しくお聞かせください。"
    else
      Str.lit "「" ++ question ++
        Str.lit "」について回答させていただきます。関連する資料をアップロードしていただくと、より詳細で正確な情報を提供できます。"
  else if jsIncludes questionLower (Str.lit "方法") ||
      jsIncludes questionLower (Str.lit "やり方") then
    Str.lit "「" ++ question ++
      Str.lit "」の手順について説明いたします。段階的な手順や具体的な方法をお知りになりたい場合は、より詳しくお聞かせください。"
  else
    Str.lit "「" ++ question ++
      Str.lit "」について承りました。より具体的な情報や詳細をお求めの場合は、関連する文書をアップロードしていただくか、具体的な質問をお聞かせください。"

/-- The Japanese sentence terminators `[。！？]`. -/
def isJpSentEnd (c : Char) : Bool := c == '。' || c == '！' || c == '？'

/-- `enhanceResponseQuality` from `part_013`: drop a trailing fragment
shorter than 10 characters, replace very short answers by a context-aware
response, and prefix a document-answer header when document context is
present. -/
def enhanceResponseQuality (response originalQuestion documentContext : Str) : Str :=
  let enhanced := response
  let sentences := splitOnChar isJpSentEnd enhanced
  let enhanced :=
    if 1 < sentences.length ∧ (jsTrim (sentences.getLastD [])).length < 10 then
      joinWith (Str.lit "。") sentences.dropLast ++ Str.lit "。"
    else enhanced
  let enhanced :=
    if enhanced.length < 20 then
      generateContextAwareResponse originalQuestion documentContext
    else enhanced
  if ¬ documentContext.isEmpty && ¬ jsIncludes enhanced (Str.lit "📄") then
    Str.lit "📄 **文書ベース回答**\n\n" ++ enhanced
  else enhanced

/-- An observable step of a chat operation: a stream frame handed to the
consumer, or a turn committed to the conversation memory via `addTurn`. -/
inductive ChatEvent
  | frame (content : Str)
  | commit (role : Role) (content : Str) (documentContext : Option Str)
deriving DecidableEq, Repr

/-- The commit events of a trace. -/
def commitEvents (events : List ChatEvent) : List ChatEvent :=
  events.filter (fun e =>
    match e with
    | ChatEvent.commit _ _ _ => true
    | _ => false)

/-- The frame contents of a trace, in order. -/
def frameContents (events : List ChatEvent) : List Str :=
  events.filterMap (fun e =>
    match e with
    | ChatEvent.frame c => some c
    | _ => none)

/-- Replay a trace's commits into a memory (`addTurn` with the current
time `ts`; the timestamps are irrelevant to every claim). -/
def applyEvents (mem : ConversationMemory) (events : List ChatEvent) (ts : ℕ) :
    ConversationMemory :=
  events.foldl
    (fun m e =>
      match e with
      | ChatEvent.commit role content dc => m.addTurn role content dc ts
      | ChatEvent.frame _ => m)
    mem

/-- `generateAdvancedChatResponse` from `part_013` (lines 248–312), with
the completion service's outcome passed as `svc` (`none` = the call
threw).  Returns the delivered text and the trace of memory commits; the
caller's memory is updated by replaying the trace (`applyEvents`). -/
def generateAdvancedChatResponse (svc : Option Str) (message : Str)
    (documentContext : Option Str) (mem : ConversationMemory) : Str × List ChatEvent :=
  match svc with
  | some generated =>
    let recentDocContext :=
      match documentContext with
      | some s => if s.isEmpty then mem.getRecentDocumentContext else s
      | none => mem.getRecentDocumentContext
    let generatedText := enhanceResponseQuality (jsTrim generated) message recentDocContext
    (generatedText,
      [ChatEvent.commit Role.user message documentContext,
       ChatEvent.commit Role.assistant generatedText documentContext])
  | none =>
    let fallbackResponse :=
      generateIntelligentFallback message (documentContext.getD [])
    (fallbackResponse,
      [ChatEvent.commit Role.user message documentContext,
       ChatEvent.commit Role.assistant fallbackResponse documentContext])

/-- `split(/([。！？])/g)`: split on the terminators, keeping each
terminator as its own piece. -/
def splitKeepAux (p : Char → Bool) : Str → Str → List Str
  | [], cur => [cur.reverse]
  | c :: rest, cur =>
    if p c then cur.reverse :: [c] :: splitKeepAux p rest []
    else splitKeepAux p rest (c :: cur)

def splitKeep (p : Char → Bool) (s : Str) : List Str := splitKeepAux p s []

/-- The cumulative frames yielded by the streaming loop: chunks that are
whitespace-only (falsy after `trim()`) are skipped and not accumulated;
every kept chunk extends the running string, which is yielded. -/
def streamFrames : List Str → Str → List Str
  | [], _ => []
  | chunk :: rest, acc =>
    if (jsTrim chunk).isEmpty then streamFrames rest acc
    else
      let acc2 := acc ++ chunk
      acc2 :: streamFrames rest acc2

/-- `generateStreamingResponse` from `part_013` (lines 1025–1101) as an
event trace.  On success the generator yields the cumulative frames and
only then (after the last yield) commits the user and assistant turns; in
the catch branch it yields the fallback once and commits nothing.  The
prompt assembled from the memory's context views only feeds the opaque
service and is not modelled. -/
def generateStreamingResponse (svc : Option Str) (message : Str)
    (documentContext : Option Str) : List ChatEvent :=
  match svc with
  | some generated =>
    let fullResponse := jsTrim generated
    let chunks := splitKeep isJpSentEnd fullResponse
    (streamFrames chunks []).map ChatEvent.frame ++
      [ChatEvent.commit Role.user message documentContext,
       ChatEvent.commit Role.assistant fullResponse documentContext]
  | none =>
    [ChatEvent.frame (generateIntelligentFallback message (documentContext.getD []))]

/-- The prefix of a trace that a consumer making `k` `next()` calls
observes: each call resumes the generator, which runs (committing as it
goes) up to and including its next `yield`; the code after the final
yield runs only on the call that reports the generator done. -/
def observeStream : ℕ → List ChatEvent → List ChatEvent
  | _, [] => []
  | 0, _ :: _ => []
  | k + 1, ChatEvent.frame c :: rest => ChatEvent.frame c :: observeStream k rest
  | k + 1, ChatEvent.commit role content dc :: rest =>
    ChatEvent.commit role content dc :: observeStream (k + 1) rest

/-- A memory fixture for the C8 comparison. -/
def c8mem : ConversationMemory := ⟨[], 10, 2000⟩

/-- A generated answer whose streaming frames reassemble to the trimmed
text, while the synchronous path prefixes the document header. -/
def c8text : Str := Str.lit "これはとても長い回答でございますよ。はい。"


/-! # Theorems

All definitions are above; the claim theorems and their supporting lemmas
follow. -/

/-- **C9**: `getDocumentById` returns `null` both when no document has the
requested id and when every document carrying that id has been
soft-deleted (`isActive = false`); it returns a document only if that
document has the requested id and is active — so a soft-deleted document
is indistinguishable from a missing one through this operation. -/
theorem C9_getDocumentById_active_only (docs : List DocumentMetadata) (id : Str) :
    (∀ d, getDocumentById docs id = some d → d.id = id ∧ d.isActive = true) ∧
    ((∀ d ∈ docs, d.id = id → d.isActive = false) → getDocumentById docs id = none) := by
  constructor
  · intro d h
    have hp := List.find?_some h
    simp only [Bool.and_eq_true, beq_iff_eq] at hp
    exact hp
  · intro h
    rw [getDocumentById, List.find?_eq_none]
    intro d hd
    simp only [Bool.and_eq_true, beq_iff_eq, not_and]
    intro hid
    simp [h d hd hid]

theorem C9_getDocumentById_active_only_witness :
    (∀ d ∈ c9docs, d.id = Str.lit "b" → d.isActive = false) ∧
    getDocumentById c9docs (Str.lit "b") = none :=
  ⟨by decide, (C9_getDocumentById_active_only c9docs (Str.lit "b")).2 (by decide)⟩

/-- **C10**: `deleteDocument` on a store containing the id returns `true`
and changes exactly the first document carrying the id, and only its
`isActive` field (to `false`); every other document is untouched.  It is
idempotent, and on a store without the id it returns `false` and leaves
the store unchanged. -/
theorem C10_deleteDocument_soft_delete (docs : List DocumentMetadata) (id : Str) :
    ((∀ d ∈ docs, d.id ≠ id) → deleteDocument docs id = (false, docs)) ∧
    ((∃ d ∈ docs, d.id = id) →
      (deleteDocument docs id).1 = true ∧
      ∃ i, ∃ hi : i < docs.length,
        (docs.get ⟨i, hi⟩).id = id ∧
        (∀ j, ∀ hj : j < docs.length, j < i → (docs.get ⟨j, hj⟩).id ≠ id) ∧
        (deleteDocument docs id).2 = docs.set i (deactivate (docs.get ⟨i, hi⟩))) ∧
    (deleteDocument (deleteDocument docs id).2 id).2 = (deleteDocument docs id).2 := by
  induction docs with
  | nil =>
    refine ⟨fun _ => rfl, ?_, rfl⟩
    rintro ⟨d, hd, -⟩
    exact absurd hd (List.not_mem_nil d)
  | cons d rest ih =>
    by_cases hd : d.id = id
    · refine ⟨?_, ?_, ?_⟩
      · intro h
        exact absurd hd (h d (List.mem_cons_self d rest))
      · intro _
        refine ⟨by simp [deleteDocument, hd], 0, Nat.succ_pos _, hd, ?_, ?_⟩
        · intro j _ hj
          exact absurd hj (Nat.not_lt_zero j)
        · simp [deleteDocument, hd, List.set]
      · have h1 : (deleteDocument (d :: rest) id).2 = deactivate d :: rest := by
          simp [deleteDocument, hd]
        rw [h1]
        simp [deleteDocument, hd, deactivate]
    · obtain ⟨ihn, ihs, ihi⟩ := ih
      refine ⟨?_, ?_, ?_⟩
      · intro h
        have : deleteDocument rest id = (false, rest) :=
          ihn (fun x hx => h x (List.mem_cons_of_mem d hx))
        simp [deleteDocument, hd, this]
      · rintro ⟨e, he, heid⟩
        rcases List.mem_cons.mp he with rfl | he'
        · exact absurd heid hd
        · obtain ⟨hret, i, hi, hgi, hbefore, hset⟩ := ihs ⟨e, he', heid⟩
          refine ⟨by simp [deleteDocument, hd, hret], i + 1, Nat.succ_lt_succ hi, hgi, ?_, ?_⟩
          · intro j hj hji
            cases j with
            | zero => exact hd
            | succ j' =>
              exact hbefore j' (Nat.lt_of_succ_lt_succ hj) (Nat.lt_of_succ_lt_succ hji)
          · simp [deleteDocument, hd, hset, List.set]
      · have h2 : (deleteDocument (d :: rest) id).2 = d :: (deleteDocument rest id).2 := by
          simp [deleteDocument, hd]
        rw [h2]
        simp [deleteDocument, hd, ihi]

theorem C10_deleteDocument_soft_delete_witness :
    (∃ d ∈ c9docs, d.id = Str.lit "a") ∧
    ((deleteDocument c9docs (Str.lit "a")).1 = true ∧
      ∃ i, ∃ hi : i < c9docs.length,
        (c9docs.get ⟨i, hi⟩).id = Str.lit "a" ∧
        (∀ j, ∀ hj : j < c9docs.length, j < i → (c9docs.get ⟨j, hj⟩).id ≠ Str.lit "a") ∧
        (deleteDocument c9docs (Str.lit "a")).2 =
          c9docs.set i (deactivate (c9docs.get ⟨i, hi⟩))) :=
  ⟨⟨_, List.mem_cons_self _ _, rfl⟩,
    (C10_deleteDocument_soft_delete c9docs (Str.lit "a")).2.1
      ⟨_, List.mem_cons_self _ _, rfl⟩⟩

/-! ### Search-engine lemmas -/

/-- The scoring fold adds the specification's per-term contribution for
each term. -/
theorem matchScore_foldl_eq_sum (tl : Str) (ts : List Str) (a : ℕ) :
    List.foldl
      (fun score term =>
        if term.length = 0 then score
        else
          let occurrences := countOccur term tl
          if 0 < occurrences then
            score + 10 * occurrences + term.length +
              (if containsCJK term then 0 else 20 * countWordMatches tl term)
          else score)
      a ts = a + (ts.map (specTermContribution tl)).sum := by
  induction ts generalizing a with
  | nil => simp
  | cons t ts ih =>
    simp only [List.foldl_cons, List.map_cons, List.sum_cons]
    rw [ih]
    by_cases ht : t.length = 0
    · have ht' : t = [] := List.eq_nil_of_length_eq_zero ht
      subst ht'
      simp [specTermContribution, countOccur]
    · simp only [ht, if_false, specTermContribution]
      by_cases hocc : 0 < countOccur t tl
      · simp only [hocc, if_true]
        omega
      · simp only [hocc, if_false]
        omega

/-- `calculateMatchScore` computes the specification's per-field formula. -/
theorem calculateMatchScore_eq_specFieldScore (text : Str) (terms : List Str) :
    calculateMatchScore text terms = specFieldScore text terms := by
  cases text with
  | nil =>
    simp only [calculateMatchScore, List.isEmpty_nil, if_true, specFieldScore]
    symm
    apply List.sum_eq_zero
    intro x hx
    obtain ⟨t, _, rfl⟩ := List.mem_map.mp hx
    unfold specTermContribution countOccur
    cases t <;> simp [countOccurAux, lowerStr]
  | cons c cs =>
    simp only [calculateMatchScore, List.isEmpty_cons, if_false]
    exact (matchScore_foldl_eq_sum (lowerStr (c :: cs)) terms 0).trans (by simp [specFieldScore])

/-- Characterisation of a result produced by `scoreDoc`: it carries the
scored document, the weighted four-field total (which is positive), and
the priority-selected match type and matched text. -/
theorem scoreDoc_some_spec (terms : List Str) (doc : DocumentMetadata) (r : SearchResult)
    (h : scoreDoc terms doc = some r) :
    r.document = doc ∧
    r.relevanceScore =
      calculateMatchScore doc.title terms * 10 +
      calculateMatchScore doc.description terms * 5 +
      calculateMatchScore (joinWith [' '] doc.tags) terms * 8 +
      calculateMatchScore doc.extractedText terms * 2 ∧
    0 < r.relevanceScore ∧
    (r.matchType, r.matchedText) =
      (let sel := specMatchSelect (calculateMatchScore doc.title terms)
        (calculateMatchScore doc.description terms)
        (calculateMatchScore (joinWith [' '] doc.tags) terms) doc terms
       (sel.1, some sel.2)) := by
  have hnil : ∀ ts : List Str, calculateMatchScore [] ts = 0 := fun ts => by
    simp [calculateMatchScore]
  by_cases h1 : 0 < calculateMatchScore doc.title terms <;>
    by_cases h2 : 0 < calculateMatchScore doc.description terms <;>
      by_cases h3 : 0 < calculateMatchScore (joinWith [' '] doc.tags) terms <;>
        by_cases h4 : 0 < doc.extractedText.length <;>
          by_cases h5 : 0 < calculateMatchScore doc.extractedText terms <;>
            simp only [scoreDoc, h1, h2, h3, h4, h5, if_true, if_false, reduceIte,
              reduceCtorEq] at h
  all_goals
    split at h
  all_goals
    first
    | (rename_i hif
       first
       | exact absurd hif (by omega)
       | (have hr := Option.some.inj h
          subst hr
          refine ⟨rfl, by simp_all, hif, by simp [specMatchSelect, h1, h2, h3]⟩))
    | exact absurd h (by simp)

/-- With a query that does not trim to the empty string, `searchDocuments`
takes the scoring-and-sorting branch. -/
theorem searchDocuments_nonempty (query : Str) (docs : List DocumentMetadata) (limit : ℕ)
    (hq : jsTrim query ≠ []) :
    searchDocuments query docs limit =
      (List.insertionSort scoreGE
        (rawResults (extractTerms (lowerStr query))
          (docs.filter (fun d => d.isActive)))).take limit := by
  have hne : query ≠ [] := by
    intro e
    exact hq (by simp [e, jsTrim])
  simp only [searchDocuments]
  rw [if_neg]
  simp only [Bool.or_eq_true, List.isEmpty_iff, not_or]
  exact ⟨hne, hq⟩

/-- Every member of a non-empty-query search result comes from `scoreDoc`
on an active document. -/
theorem mem_searchDocuments_nonempty (query : Str) (docs : List DocumentMetadata)
    (limit : ℕ) (r : SearchResult) (hq : jsTrim query ≠ [])
    (hr : r ∈ searchDocuments query docs limit) :
    ∃ d ∈ docs.filter (fun d => d.isActive),
      scoreDoc (extractTerms (lowerStr query)) d = some r := by
  rw [searchDocuments_nonempty query docs limit hq] at hr
  have h1 := List.mem_of_mem_take hr
  have h2 := (List.perm_insertionSort scoreGE _).mem_iff.mp h1
  simp only [rawResults] at h2
  exact List.mem_filterMap.mp h2

/-- Inserting into a sorted-by-descending-score list passes only elements
with strictly greater score, so a fixed-score filter is unchanged except
for the inserted element appearing first among its score class. -/
theorem orderedInsert_filter_score (a : SearchResult) (l : List SearchResult) (s : ℕ) :
    (l.orderedInsert scoreGE a).filter (fun r => r.relevanceScore == s) =
      (if a.relevanceScore = s
       then a :: l.filter (fun r => r.relevanceScore == s)
       else l.filter (fun r => r.relevanceScore == s)) := by
  induction l with
  | nil =>
    by_cases h : a.relevanceScore = s <;> simp [List.orderedInsert, h]
  | cons b l ih =>
    by_cases hab : scoreGE a b
    · rw [List.orderedInsert, if_pos hab]
      by_cases h : a.relevanceScore = s <;> simp [List.filter_cons, h]
    · rw [List.orderedInsert, if_neg hab]
      have hlt : a.relevanceScore < b.relevanceScore := Nat.lt_of_not_le hab
      by_cases hbs : b.relevanceScore = s
      · have has : ¬ a.relevanceScore = s := by omega
        simp [List.filter_cons, hbs, has, ih]
      · simp [List.filter_cons, hbs, ih]

/-- Insertion sort is stable: elements of any fixed score stay in their
original relative order. -/
theorem insertionSort_filter_score (l : List SearchResult) (s : ℕ) :
    (List.insertionSort scoreGE l).filter (fun r => r.relevanceScore == s) =
      l.filter (fun r => r.relevanceScore == s) := by
  induction l with
  | nil => rfl
  | cons a l ih =>
    simp only [List.insertionSort]
    rw [orderedInsert_filter_score, ih]
    by_cases h : a.relevanceScore = s <;> simp [List.filter_cons, h]

/-- **C1**: for a non-empty query, `searchDocuments` returns the first
`limit` entries of the stable descending sort (by `relevanceScore`) of the
scored results: the output is descending, has length at most `limit`, and
is a prefix of a permutation of the raw results that is sorted
descendingly and preserves the original order within every score class
(stability). -/
theorem C1_search_sorted_stable_truncated (query : Str) (docs : List DocumentMetadata)
    (limit : ℕ) (hq : jsTrim query ≠ []) :
    List.Pairwise scoreGE (searchDocuments query docs limit) ∧
    (searchDocuments query docs limit).length ≤ limit ∧
    ∃ sorted : List SearchResult,
      searchDocuments query docs limit = sorted.take limit ∧
      sorted.Perm (rawResults (extractTerms (lowerStr query))
        (docs.filter (fun d => d.isActive))) ∧
      List.Pairwise scoreGE sorted ∧
      ∀ s : ℕ,
        sorted.filter (fun r => r.relevanceScore == s) =
          (rawResults (extractTerms (lowerStr query))
            (docs.filter (fun d => d.isActive))).filter
            (fun r => r.relevanceScore == s) := by
  rw [searchDocuments_nonempty query docs limit hq]
  have hsorted : List.Pairwise scoreGE
      (List.insertionSort scoreGE (rawResults (extractTerms (lowerStr query))
        (docs.filter (fun d => d.isActive)))) :=
    List.sorted_insertionSort scoreGE _
  refine ⟨hsorted.sublist (List.take_sublist _ _), ?_,
    List.insertionSort scoreGE _, rfl, List.perm_insertionSort _ _, hsorted,
    fun s => insertionSort_filter_score _ s⟩
  simp

theorem C1_search_sorted_stable_truncated_witness :
    jsTrim (Str.lit "report") ≠ [] ∧
    (List.Pairwise scoreGE (searchDocuments (Str.lit "report") c2docs 2) ∧
     (searchDocuments (Str.lit "report") c2docs 2).length ≤ 2 ∧
     ∃ sorted : List SearchResult,
       searchDocuments (Str.lit "report") c2docs 2 = sorted.take 2 ∧
       sorted.Perm (rawResults (extractTerms (lowerStr (Str.lit "report")))
         (c2docs.filter (fun d => d.isActive))) ∧
       List.Pairwise scoreGE sorted ∧
       ∀ s : ℕ,
         sorted.filter (fun r => r.relevanceScore == s) =
           (rawResults (extractTerms (lowerStr (Str.lit "report")))
             (c2docs.filter (fun d => d.isActive))).filter
             (fun r => r.relevanceScore == s)) :=
  ⟨by decide, C1_search_sorted_stable_truncated (Str.lit "report") c2docs 2 (by decide)⟩

/-- **C2**: no inactive document ever appears in a `searchDocuments`
result, for any query (empty or not); concretely, with three active and
two inactive documents all matching the query by content, the result has
at most three entries and contains neither inactive id. -/
theorem C2_inactive_excluded :
    (∀ (query : Str) (docs : List DocumentMetadata) (limit : ℕ),
        ∀ r ∈ searchDocuments query docs limit, r.document.isActive = true) ∧
    (searchDocuments (Str.lit "report") c2docs 10).length ≤ 3 ∧
    (∀ r ∈ searchDocuments (Str.lit "report") c2docs 10,
        r.document.id ≠ Str.lit "d4" ∧ r.document.id ≠ Str.lit "d5") := by
  refine ⟨?_, by decide, by decide⟩
  intro query docs limit r hr
  by_cases hq : jsTrim query = []
  · simp only [searchDocuments] at hr
    rw [if_pos (by simp [hq])] at hr
    obtain ⟨d, hd, rfl⟩ := List.mem_map.mp hr
    exact (List.mem_filter.mp (List.mem_of_mem_take hd)).2
  · obtain ⟨d, hd, hs⟩ := mem_searchDocuments_nonempty query docs limit r hq hr
    obtain ⟨hdoc, -, -, -⟩ := scoreDoc_some_spec _ _ _ hs
    rw [hdoc]
    exact (List.mem_filter.mp hd).2

/-- The empty-query branch on a one-document store returns that document
with score 0 as a content match; its member is active — a concrete
instance of C2's invariant. -/
theorem C2_inactive_excluded_witness :
    (⟨c3doc, 0, MatchType.content, none⟩ : SearchResult) ∈
      searchDocuments [] [c3doc] 1 ∧
    (⟨c3doc, 0, MatchType.content, none⟩ : SearchResult).document.isActive = true :=
  ⟨by decide, C2_inactive_excluded.1 [] [c3doc] 1 _ (by decide)⟩

/-- **C3**: for a non-empty query, every returned result's
`relevanceScore` is the weighted sum `10 × titleScore + 8 × tagsScore +
5 × descriptionScore + 2 × contentScore` of the specification's per-field
term-sum scores (everything in tenths, see the header), and a returned
result always has a positive score (zero-total documents are excluded). -/
theorem C3_relevance_formula (query : Str) (docs : List DocumentMetadata) (limit : ℕ)
    (hq : jsTrim query ≠ []) (r : SearchResult)
    (hr : r ∈ searchDocuments query docs limit) :
    r.relevanceScore =
      10 * specFieldScore r.document.title (extractTerms (lowerStr query)) +
      8 * specFieldScore (joinWith [' '] r.document.tags) (extractTerms (lowerStr query)) +
      5 * specFieldScore r.document.description (extractTerms (lowerStr query)) +
      2 * specFieldScore r.document.extractedText (extractTerms (lowerStr query)) ∧
    0 < r.relevanceScore := by
  obtain ⟨d, hd, hs⟩ := mem_searchDocuments_nonempty query docs limit r hq hr
  obtain ⟨hdoc, hscore, hpos, -⟩ := scoreDoc_some_spec _ _ _ hs
  refine ⟨?_, hpos⟩
  rw [hdoc, hscore]
  rw [calculateMatchScore_eq_specFieldScore, calculateMatchScore_eq_specFieldScore,
    calculateMatchScore_eq_specFieldScore, calculateMatchScore_eq_specFieldScore]
  ring

theorem C3_relevance_formula_witness :
    jsTrim (Str.lit "report") ≠ [] ∧
    c3result ∈ searchDocuments (Str.lit "report") [c3doc] 10 ∧
    (c3result.relevanceScore =
      10 * specFieldScore c3result.document.title
        (extractTerms (lowerStr (Str.lit "report"))) +
      8 * specFieldScore (joinWith [' '] c3result.document.tags)
        (extractTerms (lowerStr (Str.lit "report"))) +
      5 * specFieldScore c3result.document.description
        (extractTerms (lowerStr (Str.lit "report"))) +
      2 * specFieldScore c3result.document.extractedText
        (extractTerms (lowerStr (Str.lit "report"))) ∧
     0 < c3result.relevanceScore) :=
  ⟨by decide, by decide,
    C3_relevance_formula (Str.lit "report") [c3doc] 10 (by decide) c3result (by decide)⟩

/-- **C5, counterexample**: for this document, the description field and
the tags field both score positively while the title scores zero, yet the
result's `matchType` is `description`, not `tags` as the claim requires:
the code checks description before tags. -/
theorem C5_counterexample_description_beats_tags :
    0 < calculateMatchScore c5doc.description (extractTerms (lowerStr (Str.lit "meeting"))) ∧
    0 < calculateMatchScore (joinWith [' '] c5doc.tags)
      (extractTerms (lowerStr (Str.lit "meeting"))) ∧
    calculateMatchScore c5doc.title (extractTerms (lowerStr (Str.lit "meeting"))) = 0 ∧
    (searchDocuments (Str.lit "meeting") [c5doc] 10).map (fun r => r.matchType) =
      [MatchType.description] ∧
    MatchType.description ≠ MatchType.tags := by decide

/-- **C5, amended**: the actually implemented priority is title >
description > tags > content: every result of a non-empty-query search
carries the match type and matched text selected by `specMatchSelect`
(title first, then description, then tags, then the content snippet). -/
theorem C5_match_priority (query : Str) (docs : List DocumentMetadata) (limit : ℕ)
    (hq : jsTrim query ≠ []) (r : SearchResult)
    (hr : r ∈ searchDocuments query docs limit) :
    (r.matchType, r.matchedText) =
      (let sel := specMatchSelect
        (calculateMatchScore r.document.title (extractTerms (lowerStr query)))
        (calculateMatchScore r.document.description (extractTerms (lowerStr query)))
        (calculateMatchScore (joinWith [' '] r.document.tags)
          (extractTerms (lowerStr query)))
        r.document (extractTerms (lowerStr query))
       (sel.1, some sel.2)) := by
  obtain ⟨d, hd, hs⟩ := mem_searchDocuments_nonempty query docs limit r hq hr
  obtain ⟨hdoc, -, -, hmt⟩ := scoreDoc_some_spec _ _ _ hs
  rw [hdoc]
  exact hmt

theorem C5_match_priority_witness :
    jsTrim (Str.lit "meeting") ≠ [] ∧
    c5result ∈ searchDocuments (Str.lit "meeting") [c5doc] 10 ∧
    (c5result.matchType, c5result.matchedText) =
      (let sel := specMatchSelect
        (calculateMatchScore c5result.document.title
          (extractTerms (lowerStr (Str.lit "meeting"))))
        (calculateMatchScore c5result.document.description
          (extractTerms (lowerStr (Str.lit "meeting"))))
        (calculateMatchScore (joinWith [' '] c5result.document.tags)
          (extractTerms (lowerStr (Str.lit "meeting"))))
        c5result.document (extractTerms (lowerStr (Str.lit "meeting")))
       (sel.1, some sel.2)) :=
  ⟨by decide, by decide,
    C5_match_priority (Str.lit "meeting") [c5doc] 10 (by decide) c5result (by decide)⟩

/-! ### Conversation-memory lemmas -/

/-- **C6, counterexample**: with `maxTurns = 0`, a single `addTurn` leaves
one turn in the history — `slice(-0)` returns the whole array, so the
history length exceeds `maxTurns` and the claimed invariant
`len(history) ≤ maxTurns` fails for this constructible memory. -/
theorem C6_counterexample_maxTurns_zero :
    (c6mem0.addTurn Role.user (Str.lit "hi") none 0).history.length = 1 ∧
    ¬ (c6mem0.addTurn Role.user (Str.lit "hi") none 0).history.length ≤
        c6mem0.maxTurns := by decide

/-- **C6, amended**: for every memory whose `maxTurns` is at least 1,
every `addTurn` leaves the history length at most `maxTurns` (so the
invariant holds after every such call, whatever the prior state); and
after 5 sequential `addTurn` calls on a fresh memory with `maxTurns = 3`,
the history is exactly the 3 most recently added turns in insertion
order. -/
theorem C6_addTurn_caps_history (m : ConversationMemory) (role : Role) (content : Str)
    (dc : Option Str) (ts : ℕ) (hm : 1 ≤ m.maxTurns) :
    (m.addTurn role content dc ts).history.length ≤ m.maxTurns ∧
    c6mem5.history =
      [⟨Role.user, Str.lit "m3", 3, none⟩,
       ⟨Role.user, Str.lit "m4", 4, none⟩,
       ⟨Role.user, Str.lit "m5", 5, none⟩] := by
  refine ⟨?_, by decide⟩
  simp only [ConversationMemory.addTurn]
  split
  · rename_i hlen
    simp only [jsSliceNeg]
    rw [if_neg (by omega)]
    simp only [List.length_drop]
    omega
  · rename_i hlen
    simp only [not_lt] at hlen
    simpa using hlen

theorem C6_addTurn_caps_history_witness :
    1 ≤ (⟨[], 1, 0⟩ : ConversationMemory).maxTurns ∧
    (((⟨[], 1, 0⟩ : ConversationMemory).addTurn Role.user (Str.lit "x") none 0).history.length ≤
        (⟨[], 1, 0⟩ : ConversationMemory).maxTurns ∧
      c6mem5.history =
        [⟨Role.user, Str.lit "m3", 3, none⟩,
         ⟨Role.user, Str.lit "m4", 4, none⟩,
         ⟨Role.user, Str.lit "m5", 5, none⟩]) :=
  ⟨by decide,
    C6_addTurn_caps_history ⟨[], 1, 0⟩ Role.user (Str.lit "x") none 0 (by decide)⟩

/-- The context loop never accumulates more characters than the
quarter-token budget allows. -/
theorem getContextAux_length_le (maxTokens : ℕ) (l : List ConversationTurn) :
    ∀ (tc : ℕ) (acc : Str), tc = acc.length → tc ≤ 4 * maxTokens →
      (getContextAux maxTokens l tc acc).length ≤ 4 * maxTokens := by
  induction l with
  | nil =>
    intro tc acc hacc hle
    simpa [getContextAux, ← hacc] using hle
  | cons t rest ih =>
    intro tc acc hacc hle
    simp only [getContextAux]
    split
    · simpa [← hacc] using hle
    · rename_i hfit
      exact ih (tc + (formatTurn t).length) (formatTurn t ++ acc)
        (by simp [List.length_append, hacc]; omega) (by omega)

/-- The context loop produces the formatted texts of a prefix of its
(reversed) input, prepended to the accumulator. -/
theorem getContextAux_eq_take (maxTokens : ℕ) (l : List ConversationTurn) :
    ∀ (tc : ℕ) (acc : Str), ∃ j,
      getContextAux maxTokens l tc acc =
        ((l.take j).reverse.map formatTurn).flatten ++ acc := by
  induction l with
  | nil =>
    intro tc acc
    exact ⟨0, by simp [getContextAux]⟩
  | cons t rest ih =>
    intro tc acc
    simp only [getContextAux]
    split
    · exact ⟨0, by simp⟩
    · obtain ⟨j, hj⟩ := ih (tc + (formatTurn t).length) (formatTurn t ++ acc)
      refine ⟨j + 1, ?_⟩
      rw [hj]
      simp [List.take_succ_cons, List.reverse_cons, List.map_append, List.flatten_append,
        List.append_assoc]

/-- **C7**: `getContext` returns a transcript whose character count never
exceeds four times `maxTokens` (i.e. the `chars / 4` token estimate never
exceeds the budget); the transcript is the concatenation, oldest first, of
the formatted texts of a contiguous suffix of the history; and a memory
with turns but a zero budget yields the empty transcript. -/
theorem C7_getContext_bounded_suffix (m : ConversationMemory) :
    m.getContext.length ≤ 4 * m.maxTokens ∧
    (∃ k, m.getContext = ((m.history.drop k).map formatTurn).flatten) ∧
    c7mem0.getContext = [] := by
  refine ⟨?_, ?_, by decide⟩
  · exact getContextAux_length_le m.maxTokens m.history.reverse 0 [] rfl (by omega)
  · obtain ⟨j, hj⟩ := getContextAux_eq_take m.maxTokens m.history.reverse 0 []
    refine ⟨m.history.length - j, ?_⟩
    rw [ConversationMemory.getContext, hj]
    rw [show (m.history.reverse.take j).reverse = m.history.drop (m.history.length - j)
          from by rw [← List.rtake_eq_reverse_take_reverse, List.rtake]]
    simp

/-! ### Response-assembly lemmas -/

/-- The fallback answer is never empty: its template starts with a fixed
header. -/
theorem generateIntelligentFallback_ne_nil (q c : Str) :
    generateIntelligentFallback q c ≠ [] := by
  intro h
  simp only [generateIntelligentFallback, List.append_eq_nil] at h
  exact absurd h.2 (by decide)

/-- Frames contribute nothing to the commit list. -/
theorem commitEvents_frames_append (l : List Str) (m : List ChatEvent) :
    commitEvents (l.map ChatEvent.frame ++ m) = commitEvents m := by
  induction l with
  | nil => rfl
  | cons c l ih =>
    simp only [commitEvents, List.map_cons, List.cons_append, List.filter_cons] at ih ⊢
    exact ih

/-- A trace of pure frames commits nothing. -/
theorem commitEvents_map_frame (l : List Str) :
    commitEvents (l.map ChatEvent.frame) = [] := by
  have h := commitEvents_frames_append l []
  simp only [List.append_nil] at h
  simp [h, commitEvents]

/-- The frame contents of frames followed by anything. -/
theorem frameContents_frames_append (l : List Str) (m : List ChatEvent) :
    frameContents (l.map ChatEvent.frame ++ m) = l ++ frameContents m := by
  induction l with
  | nil => rfl
  | cons c l ih =>
    simp only [frameContents, List.map_cons, List.cons_append, List.filterMap_cons] at ih ⊢
    rw [ih]

/-- Observing `k` pulls of a trace that starts with frames returns the
first `k` frames (and none of the trailing events) as long as `k` does
not exceed the number of frames. -/
theorem observeStream_frames (l : List Str) (m : List ChatEvent) :
    ∀ k, k ≤ l.length →
      observeStream k (l.map ChatEvent.frame ++ m) = (l.take k).map ChatEvent.frame := by
  induction l with
  | nil =>
    intro k hk
    have hk0 : k = 0 := Nat.le_zero.mp hk
    subst hk0
    cases m with
    | nil => rfl
    | cons e rest => cases e <;> rfl
  | cons c l ih =>
    intro k hk
    cases k with
    | zero => rfl
    | succ k' =>
      simp only [List.map_cons, List.cons_append, observeStream, List.take_succ_cons,
        List.append_eq]
      rw [ih k' (by simp at hk; omega)]

/-- Every frame produced by the streaming loop extends the running
accumulator, and consecutive frames extend each other. -/
theorem streamFrames_prefix_chain (chunks : List Str) :
    ∀ acc : Str,
      (∀ f ∈ streamFrames chunks acc, acc.isPrefixOf f = true) ∧
      List.Chain' (fun a b => a.isPrefixOf b = true) (streamFrames chunks acc) := by
  induction chunks with
  | nil => intro acc; exact ⟨fun f hf => absurd hf (List.not_mem_nil f), List.chain'_nil⟩
  | cons c rest ih =>
    intro acc
    by_cases hc : (jsTrim c).isEmpty = true
    · simpa [streamFrames, hc] using ih acc
    · simp only [streamFrames, hc, if_false]
      obtain ⟨ihmem, ihchain⟩ := ih (acc ++ c)
      constructor
      · intro f hf
        rcases List.mem_cons.mp hf with rfl | hf'
        · simp [List.isPrefixOf_iff_prefix]
        · have h2 := ihmem f hf'
          simp only [List.isPrefixOf_iff_prefix] at h2 ⊢
          exact (List.prefix_append acc c).trans h2
      · refine List.chain'_cons'.mpr ⟨?_, ihchain⟩
        intro b hb
        exact ihmem b (List.mem_of_mem_head? hb)

/-- The final frame of the streaming loop is the accumulator followed by
every chunk that survives the whitespace filter. -/
theorem streamFrames_last (chunks : List Str) :
    ∀ acc : Str,
      (streamFrames chunks acc).getLastD acc =
        acc ++ (chunks.filter (fun x => ¬ (jsTrim x).isEmpty)).flatten := by
  induction chunks with
  | nil => intro acc; simp [streamFrames]
  | cons c rest ih =>
    intro acc
    by_cases hc : (jsTrim c).isEmpty = true
    · have h1 : streamFrames (c :: rest) acc = streamFrames rest acc := by
        simp [streamFrames, hc]
      have h2 : (c :: rest).filter (fun x => ¬ (jsTrim x).isEmpty) =
          rest.filter (fun x => ¬ (jsTrim x).isEmpty) := by
        simp [List.filter_cons, List.isEmpty_iff.mp hc]
      rw [h1, h2, ih acc]
    · have h1 : streamFrames (c :: rest) acc = (acc ++ c) :: streamFrames rest (acc ++ c) := by
        simp [streamFrames, hc]
      have hc2 : ¬ jsTrim c = [] := fun e => hc (by simp [e])
      have h2 : (c :: rest).filter (fun x => ¬ (jsTrim x).isEmpty) =
          c :: rest.filter (fun x => ¬ (jsTrim x).isEmpty) := by
        simp [List.filter_cons, hc2]
      rw [h1, h2, List.getLastD_cons, ih (acc ++ c), List.flatten_cons, List.append_assoc]

/-- **C4, counterexample**: when the completion service throws, the
streaming operation commits no turns at all — neither the user turn nor
the assistant turn is recorded, contradicting the claim's "committed …
exactly once" for this call. -/
theorem C4_counterexample_streaming_failure_commits_nothing :
    ChatEvent.commit Role.user (Str.lit "hello") none ∉
      generateStreamingResponse none (Str.lit "hello") none ∧
    commitEvents (generateStreamingResponse none (Str.lit "hello") none) = [] := by
  constructor
  · intro h
    rcases List.mem_singleton.mp h with h'
    exact ChatEvent.noConfusion h'
  · rfl

/-- **C4, amended**: when the completion service throws, the synchronous
operation returns a non-empty fallback text and commits the user turn and
the assistant turn (carrying that fallback) exactly once each; the
synchronous success path also commits both turns exactly once.  The
streaming operation, however, commits both turns exactly once only when
the service succeeds and the consumer drains the stream past the last
frame: on service failure it yields one non-empty fallback frame and
commits nothing, and a consumer that stops pulling at or before the last
frame observes no commits at all. -/
theorem C4_commit_discipline (message : Str) (docCtx : Option Str)
    (mem : ConversationMemory) (generated : Str) :
    ((generateAdvancedChatResponse none message docCtx mem).1 ≠ [] ∧
      (generateAdvancedChatResponse none message docCtx mem).2 =
        [ChatEvent.commit Role.user message docCtx,
         ChatEvent.commit Role.assistant
           (generateAdvancedChatResponse none message docCtx mem).1 docCtx]) ∧
    ((generateAdvancedChatResponse (some generated) message docCtx mem).2 =
      [ChatEvent.commit Role.user message docCtx,
       ChatEvent.commit Role.assistant
         (generateAdvancedChatResponse (some generated) message docCtx mem).1 docCtx]) ∧
    (generateStreamingResponse none message docCtx =
      [ChatEvent.frame (generateIntelligentFallback message (docCtx.getD []))] ∧
     generateIntelligentFallback message (docCtx.getD []) ≠ [] ∧
     commitEvents (generateStreamingResponse none message docCtx) = []) ∧
    (commitEvents (generateStreamingResponse (some generated) message docCtx) =
      [ChatEvent.commit Role.user message docCtx,
       ChatEvent.commit Role.assistant (jsTrim generated) docCtx]) ∧
    (∀ k, k ≤ (frameContents (generateStreamingResponse (some generated) message docCtx)).length →
      commitEvents (observeStream k (generateStreamingResponse (some generated) message docCtx)) = []) := by
  refine ⟨⟨generateIntelligentFallback_ne_nil _ _, rfl⟩, rfl, ⟨rfl,
    generateIntelligentFallback_ne_nil _ _, rfl⟩, ?_, ?_⟩
  · simp only [generateStreamingResponse]
    rw [commitEvents_frames_append]
    rfl
  · intro k hk
    simp only [generateStreamingResponse] at hk ⊢
    rw [frameContents_frames_append] at hk
    simp only [frameContents, List.filterMap_cons, List.filterMap_nil, List.append_nil] at hk
    rw [observeStream_frames _ _ k hk, commitEvents_map_frame]

theorem C4_commit_discipline_witness :
    1 ≤ (frameContents (generateStreamingResponse (some c8text) (Str.lit "質問") none)).length ∧
    commitEvents (observeStream 1
      (generateStreamingResponse (some c8text) (Str.lit "質問") none)) = [] :=
  ⟨by decide,
    (C4_commit_discipline (Str.lit "質問") none c8mem c8text).2.2.2.2 1 (by decide)⟩

/-- **C8, counterexample**: for this generated text and a non-empty
document context, the content of the final streaming frame differs from
the text the synchronous path returns for the same generated text — the
synchronous path applies post-processing (here, the document-answer
header) that the streaming path never applies. -/
theorem C8_counterexample_final_frame_ne_sync :
    (frameContents (generateStreamingResponse (some c8text) (Str.lit "質問")
        (some (Str.lit "資料x")))).getLastD [] ≠
      (generateAdvancedChatResponse (some c8text) (Str.lit "質問")
        (some (Str.lit "資料x")) c8mem).1 := by decide

/-- **C8, amended**: the streaming frames are cumulative — each frame's
content is a prefix of (extends to) the next — and the final frame equals
the trimmed generated text reassembled from its sentence-split chunks
with whitespace-only chunks omitted.  This is the raw generated text, not
the synchronous path's answer: the synchronous path additionally applies
`enhanceResponseQuality` (trailing-fragment truncation, short-answer
replacement, and a document header), which the streaming path skips. -/
theorem C8_streaming_frames_cumulative (generated message : Str) (docCtx : Option Str) :
    List.Chain' (fun a b => a.isPrefixOf b = true)
      (frameContents (generateStreamingResponse (some generated) message docCtx)) ∧
    (frameContents (generateStreamingResponse (some generated) message docCtx)).getLastD [] =
      ((splitKeep isJpSentEnd (jsTrim generated)).filter
        (fun x => ¬ (jsTrim x).isEmpty)).flatten := by
  have hfc : frameContents (generateStreamingResponse (some generated) message docCtx) =
      streamFrames (splitKeep isJpSentEnd (jsTrim generated)) [] := by
    simp only [generateStreamingResponse]
    rw [frameContents_frames_append]
    simp [frameContents, List.filterMap_cons]
  rw [hfc]
  refine ⟨(streamFrames_prefix_chain _ []).2, ?_⟩
  have := streamFrames_last (splitKeep isJpSentEnd (jsTrim generated)) []
  simpa using this
